import Mathlib

/-!
Verification of the xproperty observable-property mechanism
(`src/include/xproperty/xproperty.hpp`, `src/include/xproperty/xobserved.hpp`).

Shallow embedding. An owner instance is modelled by `Owner D E`:
`data : D` is the derived payload (its property values), and the two
registries mirror `xobserved::m_observers` and `xobserved::m_validators`
(`std::unordered_map<std::size_t, std::vector<...>>`), modelled as
association lists from offset to the registration-ordered callback
vector. Since the registries are private members of the `xobserved`
base, a callback receiving `const derived_type&` can only read the
property values, so callbacks are modelled as functions of `D` alone.

Observer callbacks (`std::function<void(const derived_type&)>`) may
mutate external state captured by the closure and may throw, so they
are modelled as `D → E → E × Option XErr` where `E` is the external
state. Validator callbacks are stored type-erased in a `linb::any`;
an `Erased D` carries a type tag standing for the erased
`std::function<V(const derived_type&, V)>` type. Property values are
modelled as `Int`.
-/

set_option autoImplicit false

namespace XProp

/-- Property value type (the `T` of an `xproperty<T, O, D>` instance). -/
abbrev Val := Int

/-- Exceptions escaping a callback invocation. `badAnyCast` models the
typed error thrown by a checked type-erasure cast on a stored-type
mismatch; `userExc` models an exception thrown by user callback code. -/
inductive XErr where
  | badAnyCast : XErr
  | userExc : Nat → XErr
deriving DecidableEq

/-- An observer callback: reads the owner payload, transforms external
state, possibly throws. Mirrors `std::function<void(const derived_type&)>`
whose closure may capture and mutate outside state. -/
abbrev ObsCb (D E : Type) := D → E → E × Option XErr

/-- A type-erased validator entry (a `linb::any` holding a
`std::function<V(const derived_type&, V)>`): `tag` identifies the erased
function type, `fn` is the stored callback, which may itself throw. -/
structure Erased (D : Type) where
  tag : Nat
  fn : D → Val → Except XErr Val

/-- `unordered_map::find` on the association-list model: the value
stored under key `i`, if present. -/
def findL {β : Type} : List (Nat × β) → Nat → Option β
  | [], _ => none
  | p :: rest, i => if p.1 = i then some p.2 else findL rest i

/-- Appends `cb` to the vector stored at the first entry with key `i`
(`position->second.push_back(cb)`). -/
def pushAt {β : Type} : List (Nat × List β) → Nat → β → List (Nat × List β)
  | [], _, _ => []
  | p :: rest, i, cb =>
      if p.1 = i then (p.1, p.2 ++ [cb]) :: rest else p :: pushAt rest i cb

/-- The registration step shared by `xobserved::observe` (lines 134-147)
and `xobserved::validate` (lines 156-169): if no vector exists for the
offset, create a one-element vector, else append. -/
def mapAdd {β : Type} (m : List (Nat × List β)) (i : Nat) (cb : β) :
    List (Nat × List β) :=
  match findL m i with
  | none => m ++ [(i, [cb])]
  | some _ => pushAt m i cb

/-- `unordered_map::erase(I)`, used by `xobserved::unobserve` (line 153)
and `xobserved::unvalidate` (line 175). -/
def mapErase {β : Type} (m : List (Nat × β)) (i : Nat) : List (Nat × β) :=
  m.filter (fun p => ¬ p.1 = i)

/-- An observed owner instance: derived payload plus the two private
registries of `xobserved<D>` (lines 102-103). -/
structure Owner (D E : Type) where
  data : D
  m_observers : List (Nat × List (ObsCb D E))
  m_validators : List (Nat × List (Erased D))

/-- `xobserved::observe<I>` (lines 134-147). -/
def observe {D E : Type} (o : Owner D E) (i : Nat) (cb : ObsCb D E) :
    Owner D E :=
  { o with m_observers := mapAdd o.m_observers i cb }

/-- `xobserved::unobserve<I>` (lines 149-154). -/
def unobserve {D E : Type} (o : Owner D E) (i : Nat) : Owner D E :=
  { o with m_observers := mapErase o.m_observers i }

/-- `xobserved::validate<I, V>` (lines 156-169): the callback is stored
type-erased, tagged with the identity of its value type `V`. -/
def validate {D E : Type} (o : Owner D E) (i : Nat) (e : Erased D) :
    Owner D E :=
  { o with m_validators := mapAdd o.m_validators i e }

/-- `xobserved::unvalidate<I>` (lines 171-176). -/
def unvalidate {D E : Type} (o : Owner D E) (i : Nat) : Owner D E :=
  { o with m_validators := mapErase o.m_validators i }

/-- Modelled from the spec: `linb::any_cast` from the bundled `any.hpp`,
which is not present under `src/` — a checked type-erasure cast that
fails loudly (raises a clearly typed error, `bad_any_cast`) when the
stored callback type disagrees with the type requested at the invocation
site, instead of silently proceeding. Here the stored and requested
types are compared through their tags. -/
def anyCast {D : Type} (e : Erased D) (reqTag : Nat) :
    Except XErr (D → Val → Except XErr Val) :=
  if e.tag = reqTag then Except.ok e.fn else Except.error XErr.badAnyCast

/-- The loop of `xobserved::invoke_validators` (lines 200-204): folds the
candidate value through the stored validators in vector order; each
validator receives the owner payload (`derived_cast()`, still holding the
pre-assignment value) and the current candidate. A thrown exception (from
the cast or from the callback) aborts the fold. -/
def foldValidators {D : Type} :
    List (Erased D) → Nat → D → Val → Except XErr Val
  | [], _, _, v => Except.ok v
  | e :: rest, reqTag, self, v =>
      match anyCast e reqTag with
      | Except.error err => Except.error err
      | Except.ok f =>
          match f self v with
          | Except.error err => Except.error err
          | Except.ok v' => foldValidators rest reqTag self v'

/-- `xobserved::invoke_validators<I, V>` (lines 193-207): if no vector is
registered for the offset, the proposed value is returned unchanged. -/
def invoke_validators {D : Type} (m : List (Nat × List (Erased D)))
    (i reqTag : Nat) (self : D) (v : Val) : Except XErr Val :=
  match findL m i with
  | none => Except.ok v
  | some cbs => foldValidators cbs reqTag self v

/-- The loop of `xobserved::invoke_observers` (lines 185-189): calls each
stored callback in vector order with `derived_cast()`; a thrown exception
stops the loop and escapes. Returns the final external state and the
escaping exception, if any. -/
def runObservers {D E : Type} :
    List (ObsCb D E) → D → E → E × Option XErr
  | [], _, ext => (ext, none)
  | cb :: rest, self, ext =>
      match cb self ext with
      | (ext', none) => runObservers rest self ext'
      | (ext', some err) => (ext', some err)

/-- `xobserved::invoke_observers<I>` (lines 178-191): a no-op when no
vector is registered for the offset. -/
def invoke_observers {D E : Type} (m : List (Nat × List (ObsCb D E)))
    (i : Nat) (self : D) (ext : E) : E × Option XErr :=
  match findL m i with
  | none => (ext, none)
  | some cbs => runObservers cbs self ext

/-- `xproperty::operator=` (lines 152-159):
`m_value = owner()->invoke_validators<offset>(value);` then
`owner()->invoke_observers<offset>();`. `setI` writes the property at
offset `i` into the payload (the store into `m_value`). C++ objects
survive an escaping exception, so the result always carries the owner's
final state together with the escaping exception, if any: a throwing
validator leaves the owner untouched and skips the store and the
observers; a throwing observer leaves the already-performed store in
effect. -/
def xassign {D E : Type} (setI : D → Val → D) (i reqTag : Nat)
    (o : Owner D E) (v : Val) (ext : E) : Owner D E × E × Option XErr :=
  match invoke_validators o.m_validators i reqTag o.data v with
  | Except.error err => (o, ext, some err)
  | Except.ok v' =>
      let o' : Owner D E := { o with data := setI o.data v' }
      let r := invoke_observers o'.m_observers i o'.data ext
      (o', r.1, r.2)

/-- Registers a list of observer callbacks for offset `i`, first to last
(repeated `xobserved::observe<I>` calls). -/
def registerObs {D E : Type} (o : Owner D E) (i : Nat)
    (cbs : List (ObsCb D E)) : Owner D E :=
  cbs.foldl (fun acc cb => observe acc i cb) o

/-- Wraps a pure validator function as a correctly tagged erased entry,
as `XVALIDATE` does when the callback type matches the property type. -/
def wrapVal {D : Type} (t : Nat) (f : D → Val → Val) : Erased D :=
  { tag := t, fn := fun d v => Except.ok (f d v) }

/-- Registers a list of pure validators for offset `i` under tag `t`,
first to last (repeated `xobserved::validate<I, V>` calls). -/
def registerVals {D E : Type} (o : Owner D E) (i t : Nat)
    (fs : List (D → Val → Val)) : Owner D E :=
  fs.foldl (fun acc f => validate acc i (wrapVal t f)) o

end XProp

namespace XProp

/-! ### Registry lemmas -/

theorem findL_append_self {β : Type} (m : List (Nat × β)) (i : Nat) (x : β)
    (h : findL m i = none) : findL (m ++ [(i, x)]) i = some x := by
  induction m with
  | nil => simp [findL]
  | cons p rest ih =>
      by_cases hp : p.1 = i
      · simp [findL, hp] at h
      · simp [findL, hp] at h ⊢
        exact ih h

theorem findL_append_other {β : Type} (m : List (Nat × β)) (i j : Nat) (x : β)
    (h : ¬ j = i) : findL (m ++ [(i, x)]) j = findL m j := by
  have hij : ¬ i = j := by omega
  induction m with
  | nil => simp [findL, hij]
  | cons p rest ih =>
      by_cases hp : p.1 = j
      · simp [findL, hp]
      · simp [findL, hp]
        exact ih

theorem findL_pushAt_self {β : Type} (m : List (Nat × List β)) (i : Nat)
    (cb : β) (l : List β) (h : findL m i = some l) :
    findL (pushAt m i cb) i = some (l ++ [cb]) := by
  induction m with
  | nil => simp [findL] at h
  | cons p rest ih =>
      by_cases hp : p.1 = i
      · simp [findL, hp] at h
        simp [pushAt, findL, hp, h]
      · simp [findL, hp] at h
        simp [pushAt, findL, hp]
        exact ih h

theorem findL_pushAt_other {β : Type} (m : List (Nat × List β)) (i j : Nat)
    (cb : β) (h : ¬ j = i) : findL (pushAt m i cb) j = findL m j := by
  have hij : ¬ i = j := by omega
  induction m with
  | nil => simp [pushAt]
  | cons p rest ih =>
      by_cases hp : p.1 = i
      · simp [pushAt, findL, hp, hij]
      · by_cases hq : p.1 = j
        · simp [pushAt, findL, hp, hq, h]
        · simp [pushAt, findL, hp, hq]
          exact ih

theorem findL_mapAdd_getD {β : Type} (m : List (Nat × List β)) (i : Nat)
    (cb : β) :
    (findL (mapAdd m i cb) i).getD [] = (findL m i).getD [] ++ [cb] := by
  unfold mapAdd
  cases h : findL m i with
  | none => simp [findL_append_self m i [cb] h, h]
  | some l => simp [findL_pushAt_self m i cb l h, h]

theorem findL_mapAdd_other {β : Type} (m : List (Nat × List β)) (i j : Nat)
    (cb : β) (h : ¬ j = i) : findL (mapAdd m i cb) j = findL m j := by
  unfold mapAdd
  cases hf : findL m i with
  | none => exact findL_append_other m i j [cb] h
  | some l => exact findL_pushAt_other m i j cb h

theorem findL_mapErase_self {β : Type} (m : List (Nat × β)) (i : Nat) :
    findL (mapErase m i) i = none := by
  induction m with
  | nil => simp [mapErase, findL]
  | cons p rest ih =>
      by_cases hp : p.1 = i
      · simpa [mapErase, List.filter_cons, hp] using ih
      · simpa [mapErase, List.filter_cons, hp, findL] using ih

theorem findL_mapErase_other {β : Type} (m : List (Nat × β)) (i j : Nat)
    (h : ¬ j = i) : findL (mapErase m i) j = findL m j := by
  have hij : ¬ i = j := by omega
  induction m with
  | nil => simp [mapErase, findL]
  | cons p rest ih =>
      by_cases hp : p.1 = i
      · have hq : ¬ p.1 = j := by omega
        simpa [mapErase, List.filter_cons, hp, findL, hq, hij] using ih
      · by_cases hq : p.1 = j
        · simp [mapErase, List.filter_cons, hp, findL, hq, h]
        · simpa [mapErase, List.filter_cons, hp, findL, hq] using ih

end XProp

namespace XProp

/-! ### Invocation lemmas -/

theorem invoke_validators_eq_getD {D : Type} (m : List (Nat × List (Erased D)))
    (i reqTag : Nat) (self : D) (v : Val) :
    invoke_validators m i reqTag self v
      = foldValidators ((findL m i).getD []) reqTag self v := by
  unfold invoke_validators
  cases h : findL m i <;> simp [foldValidators]

theorem invoke_observers_eq_getD {D E : Type}
    (m : List (Nat × List (ObsCb D E))) (i : Nat) (self : D) (ext : E) :
    invoke_observers m i self ext
      = runObservers ((findL m i).getD []) self ext := by
  unfold invoke_observers
  cases h : findL m i <;> simp [runObservers]

theorem registerObs_data {D E : Type} (o : Owner D E) (i : Nat)
    (cbs : List (ObsCb D E)) : (registerObs o i cbs).data = o.data := by
  induction cbs generalizing o with
  | nil => rfl
  | cons cb rest ih =>
      have h1 : registerObs o i (cb :: rest)
          = registerObs (observe o i cb) i rest := rfl
      rw [h1, ih]
      rfl

theorem registerObs_validators {D E : Type} (o : Owner D E) (i : Nat)
    (cbs : List (ObsCb D E)) :
    (registerObs o i cbs).m_validators = o.m_validators := by
  induction cbs generalizing o with
  | nil => rfl
  | cons cb rest ih =>
      have h1 : registerObs o i (cb :: rest)
          = registerObs (observe o i cb) i rest := rfl
      rw [h1, ih]
      rfl

theorem findL_registerObs {D E : Type} (o : Owner D E) (i : Nat)
    (cbs : List (ObsCb D E)) :
    (findL (registerObs o i cbs).m_observers i).getD []
      = (findL o.m_observers i).getD [] ++ cbs := by
  induction cbs generalizing o with
  | nil => simp [registerObs]
  | cons cb rest ih =>
      have h1 : registerObs o i (cb :: rest)
          = registerObs (observe o i cb) i rest := rfl
      rw [h1, ih]
      simp [observe, findL_mapAdd_getD]

theorem registerVals_data {D E : Type} (o : Owner D E) (i t : Nat)
    (fs : List (D → Val → Val)) : (registerVals o i t fs).data = o.data := by
  induction fs generalizing o with
  | nil => rfl
  | cons f rest ih =>
      have h1 : registerVals o i t (f :: rest)
          = registerVals (validate o i (wrapVal t f)) i t rest := rfl
      rw [h1, ih]
      rfl

theorem registerVals_observers {D E : Type} (o : Owner D E) (i t : Nat)
    (fs : List (D → Val → Val)) :
    (registerVals o i t fs).m_observers = o.m_observers := by
  induction fs generalizing o with
  | nil => rfl
  | cons f rest ih =>
      have h1 : registerVals o i t (f :: rest)
          = registerVals (validate o i (wrapVal t f)) i t rest := rfl
      rw [h1, ih]
      rfl

theorem findL_registerVals {D E : Type} (o : Owner D E) (i t : Nat)
    (fs : List (D → Val → Val)) :
    (findL (registerVals o i t fs).m_validators i).getD []
      = (findL o.m_validators i).getD [] ++ fs.map (wrapVal t) := by
  induction fs generalizing o with
  | nil => simp [registerVals]
  | cons f rest ih =>
      have h1 : registerVals o i t (f :: rest)
          = registerVals (validate o i (wrapVal t f)) i t rest := rfl
      rw [h1, ih]
      simp [validate, findL_mapAdd_getD]

theorem foldValidators_wrap {D : Type} (fs : List (D → Val → Val)) (t : Nat)
    (self : D) (v : Val) :
    foldValidators (fs.map (wrapVal t)) t self v
      = Except.ok (fs.foldl (fun acc f => f self acc) v) := by
  induction fs generalizing v with
  | nil => rfl
  | cons f rest ih =>
      simp [foldValidators, anyCast, wrapVal]
      exact ih (f self v)

theorem foldValidators_throw {D : Type} (fs1 : List (D → Val → Val))
    (es2 : List (Erased D)) (t : Nat) (e : XErr) (self : D) (v : Val) :
    foldValidators
        (fs1.map (wrapVal t) ++ (⟨t, fun _ _ => Except.error e⟩ : Erased D) :: es2)
        t self v
      = Except.error e := by
  induction fs1 generalizing v with
  | nil => simp [foldValidators, anyCast]
  | cons f rest ih =>
      simp [foldValidators, anyCast, wrapVal]
      exact ih (f self v)

theorem runObservers_total {D E : Type} (cbs : List (ObsCb D E)) (self : D)
    (ext : E) (h : ∀ cb ∈ cbs, ∀ d s, (cb d s).2 = none) :
    runObservers cbs self ext
      = (cbs.foldl (fun acc cb => (cb self acc).1) ext, none) := by
  induction cbs generalizing ext with
  | nil => rfl
  | cons cb rest ih =>
      have hrest : ∀ c ∈ rest, ∀ d s, (c d s).2 = none := by
        intro c hc
        exact h c (by simp [hc])
      rcases hcc : cb self ext with ⟨e1, e2⟩
      have h2 : e2 = none := by
        have h3 := h cb (by simp) self ext
        rw [hcc] at h3
        exact h3
      subst h2
      simp [runObservers, hcc]
      exact ih e1 hrest

theorem runObservers_throw {D E : Type} (cbs1 cbs2 : List (ObsCb D E))
    (cbT : ObsCb D E) (e : XErr) (self : D) (ext : E)
    (h1 : ∀ cb ∈ cbs1, ∀ d s, (cb d s).2 = none)
    (hT : ∀ d s, cbT d s = (s, some e)) :
    runObservers (cbs1 ++ cbT :: cbs2) self ext
      = (cbs1.foldl (fun acc cb => (cb self acc).1) ext, some e) := by
  induction cbs1 generalizing ext with
  | nil => simp [runObservers, hT self ext]
  | cons cb rest ih =>
      have hrest : ∀ c ∈ rest, ∀ d s, (c d s).2 = none := by
        intro c hc
        exact h1 c (by simp [hc])
      rcases hcc : cb self ext with ⟨e1, e2⟩
      have h2 : e2 = none := by
        have h3 := h1 cb (by simp) self ext
        rw [hcc] at h3
        exact h3
      subst h2
      simp [runObservers, hcc]
      exact ih e1 hrest

end XProp

namespace XProp

/-! ### The linking layer: XDLINK and XLINK (xobserved.hpp lines 48-61)

Two owners, a source holding property value `s` and a target holding
property value `t`, each with the observer vector registered on its
linked offset. No validators are registered in this scenario, so the
validator invocation is the identity fold. Reentrant assignments are
run on fuel: `none` means the chain of mutually triggered assignments
exceeded the given depth. -/

/-- The observer closures the link macros register: line 53 and line 60
register a closure performing the assignment of the target property from
the current source value, line 61 the converse. -/
inductive LCb where
  | setTfromS : LCb
  | setSfromT : LCb
deriving DecidableEq

/-- The two-owner link world: source value, target value, and the
observer vectors registered on the linked offset of each owner. -/
structure LW where
  s : Int
  t : Int
  sObs : List LCb
  tObs : List LCb

/-- One link observer closure: re-assigns the other owner's property
from the current source value (reads the captured owner at invocation
time). `f` performs a property assignment at the remaining fuel,
`true` targeting the source owner's property, `false` the target's. -/
def runCb (f : Bool → Int → LW → Option LW) (c : LCb) (w : LW) :
    Option LW :=
  match c with
  | LCb.setTfromS => f false (LW.s w) w
  | LCb.setSfromT => f true (LW.t w) w

/-- The loop of `invoke_observers` in the link world: runs the
registered closures in order, threading the world state. -/
def runList (f : Bool → Int → LW → Option LW) :
    List LCb → LW → Option LW
  | [], w => some w
  | c :: cs, w =>
      match runCb f c w with
      | none => none
      | some w' => runList f cs w'

/-- `xproperty::operator=` in the link world: stores the value (no
validators are registered, so the identity fold returns it unchanged),
then invokes the assigned owner's observers in order, each of which may
reentrantly assign. -/
def assignP : Nat → Bool → Int → LW → Option LW
  | 0, _, _, _ => none
  | n + 1, true, v, w => runList (assignP n) (LW.sObs { w with s := v }) { w with s := v }
  | n + 1, false, v, w => runList (assignP n) (LW.tObs { w with t := v }) { w with t := v }

/-- `XDLINK(S, SA, T, TA)` (lines 51-53): the initial copy
`T.TA = S.SA` (a full assignment of the target property), then
registration of the source-to-target observer on the source. -/
def xdlink (n : Nat) (w : LW) : Option LW :=
  match assignP n false (LW.s w) w with
  | none => none
  | some w' => some { w' with sObs := LW.sObs w' ++ [LCb.setTfromS] }

/-- `XLINK(S, SA, T, TA)` (lines 58-61): the initial copy, then
registration of the source-to-target observer on the source and of the
target-to-source observer on the target. -/
def xlink (n : Nat) (w : LW) : Option LW :=
  match assignP n false (LW.s w) w with
  | none => none
  | some w' =>
      some { w' with sObs := LW.sObs w' ++ [LCb.setTfromS],
                     tObs := LW.tObs w' ++ [LCb.setSfromT] }

end XProp

namespace XProp

/-! ### Claim theorems -/

/-- Claim C1: with validators `fs` registered in that order for offset
`K` on an owner with no previously registered validators for `K`,
assigning proposed value `V` stores the left fold of `V` through the
validator chain in registration order, each validator receiving the
owner (still holding the pre-assignment values) and the current
candidate; and after removing all validators for `K`, assigning stores
the proposed value itself (identity behaviour). -/
theorem validator_chain_fold {D E : Type} (o : Owner D E) (K t : Nat)
    (fs : List (D → Val → Val)) (g : D → Val → D) (V : Val) (ext : E)
    (hv : findL o.m_validators K = none) :
    ((xassign g K t (registerVals o K t fs) V ext).1).data
        = g o.data (fs.foldl (fun acc f => f o.data acc) V)
    ∧ ((xassign g K t (unvalidate (registerVals o K t fs) K) V ext).1).data
        = g o.data V := by
  have hreg : (findL (registerVals o K t fs).m_validators K).getD []
      = fs.map (wrapVal t) := by
    rw [findL_registerVals, hv]
    rfl
  have hval : invoke_validators (registerVals o K t fs).m_validators K t
      o.data V
      = Except.ok (fs.foldl (fun acc f => f o.data acc) V) := by
    rw [invoke_validators_eq_getD, hreg, foldValidators_wrap]
  constructor
  · simp [xassign, hval, registerVals_data]
  · have hnone : findL (mapErase (registerVals o K t fs).m_validators K) K
        = none := findL_mapErase_self _ _
    have hval2 : invoke_validators
        (mapErase (registerVals o K t fs).m_validators K) K t
        o.data V = Except.ok V := by
      simp [invoke_validators, hnone]
    simp [xassign, hval2, unvalidate, registerVals_data]

/-- Claim C2: with observers `cbs` registered in that order for offset
`K` on an owner with no previously registered observers for `K`, and a
validator chain accepting the proposed value as `V'`, a single
assignment stores `V'` and then applies each observer exactly once, in
registration order, threading the external state, every observer
receiving the owner payload already holding the stored value. -/
theorem observer_order_once {D E : Type} (o : Owner D E) (K t : Nat)
    (cbs : List (ObsCb D E)) (g : D → Val → D) (V V' : Val) (ext : E)
    (ho : findL o.m_observers K = none)
    (hval : invoke_validators o.m_validators K t o.data V = Except.ok V')
    (hnt : ∀ cb ∈ cbs, ∀ d s, (cb d s).2 = none) :
    (xassign g K t (registerObs o K cbs) V ext).1.data = g o.data V'
    ∧ (xassign g K t (registerObs o K cbs) V ext).2.1
        = cbs.foldl (fun acc cb => (cb (g o.data V') acc).1) ext
    ∧ (xassign g K t (registerObs o K cbs) V ext).2.2 = none := by
  have hval2 : invoke_validators (registerObs o K cbs).m_validators K t
      o.data V = Except.ok V' := by
    rw [registerObs_validators]
    exact hval
  have hobs : (findL (registerObs o K cbs).m_observers K).getD [] = cbs := by
    rw [findL_registerObs, ho]
    rfl
  have hrun : invoke_observers (registerObs o K cbs).m_observers K
      (g o.data V') ext
      = (cbs.foldl (fun acc cb => (cb (g o.data V') acc).1) ext, none) := by
    rw [invoke_observers_eq_getD, hobs]
    exact runObservers_total cbs (g o.data V') ext hnt
  refine ⟨?_, ?_, ?_⟩ <;> simp [xassign, hval2, registerObs_data, hrun]

/-- Claim C3: on an owner with no validators and no observers registered
for offset `K`, assigning `V` stores `V`, leaves the external state
untouched, throws nothing (zero callback invocations), and the validator
invocation routine with no registered vector returns the proposed value
unchanged. -/
theorem no_callbacks_identity {D E : Type} (o : Owner D E) (K t : Nat)
    (g : D → Val → D) (V : Val) (ext : E)
    (ho : findL o.m_observers K = none)
    (hv : findL o.m_validators K = none) :
    (xassign g K t o V ext).1.data = g o.data V
    ∧ (xassign g K t o V ext).2.1 = ext
    ∧ (xassign g K t o V ext).2.2 = none
    ∧ invoke_validators o.m_validators K t o.data V = Except.ok V := by
  have hval : invoke_validators o.m_validators K t o.data V = Except.ok V := by
    simp [invoke_validators, hv]
  have hobs : invoke_observers o.m_observers K (g o.data V) ext
      = (ext, none) := by
    simp [invoke_observers, ho]
  refine ⟨?_, ?_, ?_, hval⟩ <;> simp [xassign, hval, hobs]

end XProp

namespace XProp

theorem invoke_validators_congr {D : Type}
    (m m' : List (Nat × List (Erased D))) (i reqTag : Nat) (self : D)
    (v : Val) (h : findL m i = findL m' i) :
    invoke_validators m i reqTag self v
      = invoke_validators m' i reqTag self v := by
  unfold invoke_validators
  rw [h]

theorem invoke_observers_congr {D E : Type}
    (m m' : List (Nat × List (ObsCb D E))) (i : Nat) (self : D) (ext : E)
    (h : findL m i = findL m' i) :
    invoke_observers m i self ext = invoke_observers m' i self ext := by
  unfold invoke_observers
  rw [h]

/-- Claim C6: invoking a validator whose stored type-erased callback
type disagrees with the type requested at the invocation site fails
fast: the checked cast raises the clearly typed `badAnyCast` error, the
assignment leaves the owner and the external state untouched, and no
observer runs. -/
theorem type_mismatch_fails_fast {D E : Type} (o : Owner D E)
    (K t1 t2 : Nat) (f : D → Val → Except XErr Val) (es2 : List (Erased D))
    (g : D → Val → D) (V : Val) (ext : E)
    (hv : findL o.m_validators K = some ((⟨t1, f⟩ : Erased D) :: es2))
    (hne : ¬ t1 = t2) :
    invoke_validators o.m_validators K t2 o.data V
        = Except.error XErr.badAnyCast
    ∧ xassign g K t2 o V ext = (o, ext, some XErr.badAnyCast) := by
  have hval : invoke_validators o.m_validators K t2 o.data V
      = Except.error XErr.badAnyCast := by
    simp [invoke_validators, hv, foldValidators, anyCast, hne]
  exact ⟨hval, by simp [xassign, hval]⟩

/-- Claim C7: when a registered observer throws during an assignment,
the exception escapes to the assignment's caller unmodified, the
observers after the throwing one never run, and the newly stored value
stays in effect, since the store precedes the observer loop. -/
theorem observer_throw_keeps_store {D E : Type} (o : Owner D E) (K t : Nat)
    (cbs1 cbs2 : List (ObsCb D E)) (cbT : ObsCb D E) (e : XErr)
    (g : D → Val → D) (V V' : Val) (ext : E)
    (hval : invoke_validators o.m_validators K t o.data V = Except.ok V')
    (hobs : findL o.m_observers K = some (cbs1 ++ cbT :: cbs2))
    (h1 : ∀ cb ∈ cbs1, ∀ d s, (cb d s).2 = none)
    (hT : ∀ d s, cbT d s = (s, some e)) :
    (xassign g K t o V ext).1.data = g o.data V'
    ∧ (xassign g K t o V ext).2.1
        = cbs1.foldl (fun acc cb => (cb (g o.data V') acc).1) ext
    ∧ (xassign g K t o V ext).2.2 = some e := by
  have hr : invoke_observers o.m_observers K (g o.data V') ext
      = (cbs1.foldl (fun acc cb => (cb (g o.data V') acc).1) ext, some e) := by
    rw [invoke_observers_eq_getD, hobs]
    exact runObservers_throw cbs1 cbs2 cbT e (g o.data V') ext h1 hT
  refine ⟨?_, ?_, ?_⟩ <;> simp [xassign, hval, hr]

/-- Claim C10: when a validator in the chain throws during an
assignment, the property's stored value is left unchanged — the whole
owner and the external state are untouched and no observer runs — since
the store happens only after the entire validator chain has returned. -/
theorem validator_throw_no_store {D E : Type} (o : Owner D E) (K t : Nat)
    (fs1 : List (D → Val → Val)) (es2 : List (Erased D)) (e : XErr)
    (g : D → Val → D) (V : Val) (ext : E)
    (hv : findL o.m_validators K
        = some (fs1.map (wrapVal t)
            ++ (⟨t, fun _ _ => Except.error e⟩ : Erased D) :: es2)) :
    xassign g K t o V ext = (o, ext, some e) := by
  have hval : invoke_validators o.m_validators K t o.data V
      = Except.error e := by
    rw [invoke_validators_eq_getD, hv]
    exact foldValidators_throw fs1 es2 t e o.data V
  simp [xassign, hval]

/-- Claim C8: after unregistering all observers and all validators for
offset `K`, an assignment at `K` invokes zero callbacks (the value is
stored as proposed, the external state is untouched, nothing is
thrown); unregistering observers alone silences exactly the observer
vector of `K`, unregistering validators alone restores the identity
fold at `K`; registrations at any other offset `K2` are unaffected, and
an assignment at `K2` behaves exactly as before the unregistration. -/
theorem unregister_frame {D E : Type} (o : Owner D E) (K K2 t : Nat)
    (d : D) (g : D → Val → D) (V v : Val) (ext : E)
    (hne : ¬ K2 = K) :
    invoke_observers (unobserve o K).m_observers K d ext = (ext, none)
    ∧ invoke_validators (unvalidate o K).m_validators K t d v = Except.ok v
    ∧ (xassign g K t (unvalidate (unobserve o K) K) V ext).1.data
        = g o.data V
    ∧ (xassign g K t (unvalidate (unobserve o K) K) V ext).2.1 = ext
    ∧ (xassign g K t (unvalidate (unobserve o K) K) V ext).2.2 = none
    ∧ findL (unobserve o K).m_observers K2 = findL o.m_observers K2
    ∧ findL (unvalidate o K).m_validators K2 = findL o.m_validators K2
    ∧ (xassign g K2 t (unvalidate (unobserve o K) K) V ext).1.data
        = (xassign g K2 t o V ext).1.data
    ∧ (xassign g K2 t (unvalidate (unobserve o K) K) V ext).2.1
        = (xassign g K2 t o V ext).2.1
    ∧ (xassign g K2 t (unvalidate (unobserve o K) K) V ext).2.2
        = (xassign g K2 t o V ext).2.2 := by
  have hobsK : findL (mapErase o.m_observers K) K = none :=
    findL_mapErase_self o.m_observers K
  have hvalK : findL (mapErase o.m_validators K) K = none :=
    findL_mapErase_self o.m_validators K
  have h1 : invoke_observers (unobserve o K).m_observers K d ext
      = (ext, none) := by
    simp [unobserve, invoke_observers, hobsK]
  have h2 : invoke_validators (unvalidate o K).m_validators K t d v
      = Except.ok v := by
    simp [unvalidate, invoke_validators, hvalK]
  have h3 : invoke_validators (mapErase o.m_validators K) K t o.data V
      = Except.ok V := by
    simp [invoke_validators, hvalK]
  have h4 : invoke_observers (mapErase o.m_observers K) K (g o.data V) ext
      = (ext, none) := by
    simp [invoke_observers, hobsK]
  have hvcong : invoke_validators (mapErase o.m_validators K) K2 t o.data V
      = invoke_validators o.m_validators K2 t o.data V :=
    invoke_validators_congr _ _ K2 t o.data V
      (findL_mapErase_other o.m_validators K K2 hne)
  refine ⟨h1, h2, ?_, ?_, ?_, findL_mapErase_other o.m_observers K K2 hne,
      findL_mapErase_other o.m_validators K K2 hne, ?_, ?_, ?_⟩
  · simp [xassign, unvalidate, unobserve, h3, h4]
  · simp [xassign, unvalidate, unobserve, h3, h4]
  · simp [xassign, unvalidate, unobserve, h3, h4]
  all_goals {
    cases hres : invoke_validators o.m_validators K2 t o.data V with
    | error e =>
        simp [xassign, unvalidate, unobserve, hvcong, hres]
    | ok v' =>
        have hocong : invoke_observers (mapErase o.m_observers K) K2
            (g o.data v') ext
            = invoke_observers o.m_observers K2 (g o.data v') ext :=
          invoke_observers_congr _ _ K2 (g o.data v') ext
            (findL_mapErase_other o.m_observers K K2 hne)
        simp [xassign, unvalidate, unobserve, hvcong, hres, hocong]
  }

end XProp

namespace XProp

/-- Copy construction of an owner. `xobserved` declares
`xobserved(const xobserved&) = default` and
`xobserved(xobserved&&) = default` (lines 94, 97), and `xproperty`
leaves its copy constructor implicitly defaulted, so copying (or
moving) a derived owner performs a memberwise copy: the property values
and both registry maps are taken from the source object. -/
def copyConstruct {D E : Type} (src : Owner D E) : Owner D E :=
  { data := src.data
    m_observers := src.m_observers
    m_validators := src.m_validators }

/-- A concrete owner with one observer and one validator registered at
offset 0, as a counterexample source for copy construction. -/
def c5owner : Owner Val Nat :=
  observe (validate (Owner.mk 7 [] []) 0 (wrapVal 0 (fun _ v => v)))
    0 (fun _ s => (s + 1, none))

/-- Claim C5, counterexample: copy-constructing an owner that has one
observer and one validator registered does NOT produce empty registries
— both maps still hold an entry for offset 0, because the defaulted
copy constructor copies the registry maps memberwise. -/
theorem copy_keeps_callbacks :
    ¬ (copyConstruct c5owner).m_observers = []
    ∧ ¬ (copyConstruct c5owner).m_validators = []
    ∧ (copyConstruct c5owner).data = 7 := by
  refine ⟨?_, ?_, rfl⟩ <;>
    simp [copyConstruct, c5owner, observe, validate, mapAdd, findL]

/-- Claim C5, amended: copy (or move) construction of an owner is a
memberwise copy — the property values AND both callback registries are
transferred from the source object; the registries are not reset. -/
theorem copy_is_memberwise {D E : Type} (src : Owner D E) :
    (copyConstruct src).data = src.data
    ∧ (copyConstruct src).m_observers = src.m_observers
    ∧ (copyConstruct src).m_validators = src.m_validators :=
  ⟨rfl, rfl, rfl⟩

/-- Claim C9: a one-way link on owners without previously registered
callbacks immediately copies the source's current value into the target
(fuel 1 suffices: the initial copy is itself a full assignment on the
target, whose observer vector is empty), and a subsequent assignment of
any value `v` to the source synchronously, within that same assignment
call, stores `v` in the source and re-copies it into the target (fuel 2
covers the one reentrant assignment), leaving the registered link
observer in place. -/
theorem one_way_link (a b v : Int) :
    xdlink 1 (LW.mk a b [] []) = some (LW.mk a a [LCb.setTfromS] [])
    ∧ assignP 2 true v (LW.mk a a [LCb.setTfromS] [])
        = some (LW.mk v v [LCb.setTfromS] []) :=
  ⟨rfl, rfl⟩

/-- Claim C4: the two-way link setup itself terminates (the initial
copy runs before either observer is registered), but a subsequent
assignment to the source property never completes: whatever finite
reentrancy depth is allowed, the source observer re-assigns the target,
whose observer unconditionally re-assigns the source, re-entering the
full cycle again — there is no equality guard, so the echo repeats
unboundedly instead of stopping after one round-trip. -/
theorem two_way_link_diverges :
    xlink 1 (LW.mk 0 0 [] [])
        = some (LW.mk 0 0 [LCb.setTfromS] [LCb.setSfromT])
    ∧ ∀ (n : Nat) (b : Bool) (v s0 t0 : Int),
        assignP n b v (LW.mk s0 t0 [LCb.setTfromS] [LCb.setSfromT])
          = none := by
  refine ⟨rfl, ?_⟩
  intro n
  induction n with
  | zero =>
      intro b v s0 t0
      rfl
  | succ n ih =>
      intro b v s0 t0
      cases b
      · simp [assignP, runList, runCb, ih]
      · simp [assignP, runList, runCb, ih]

end XProp

namespace XProp

/-! ### Concrete witnesses -/

/-- Witness for C1: a single-Int-property owner, two validators (add 1,
then double) registered at offset 4; assigning 3 stores 8, and after
removing all validators assigning 3 stores 3. -/
theorem validator_chain_fold_witness :
    findL (Owner.mk (0 : Val) [] [] : Owner Val Nat).m_validators 4 = none
    ∧ ((xassign (fun _ v => v) 4 0
          (registerVals (Owner.mk (0 : Val) [] [] : Owner Val Nat) 4 0
            [fun _ v => v + 1, fun _ v => v * 2]) 3 0).1).data = 8
    ∧ ((xassign (fun _ v => v) 4 0
          (unvalidate
            (registerVals (Owner.mk (0 : Val) [] [] : Owner Val Nat) 4 0
              [fun _ v => v + 1, fun _ v => v * 2]) 4) 3 0).1).data = 3 := by
  have h := validator_chain_fold (Owner.mk (0 : Val) [] [] : Owner Val Nat)
      4 0 [fun _ v => v + 1, fun _ v => v * 2] (fun _ v => v) 3 0 rfl
  exact ⟨rfl, h.1, h.2⟩

/-- Witness for C2: two observers (add the owner value, then double the
external state) registered at offset 2; assigning 5 with external state
1 stores 5, yields external state 12 = (1 + 5) * 2, and throws
nothing — both observers saw the stored value 5. -/
theorem observer_order_once_witness :
    findL (Owner.mk (0 : Val) [] [] : Owner Val Int).m_observers 2 = none
    ∧ (xassign (fun _ v => v) 2 0
          (registerObs (Owner.mk (0 : Val) [] [] : Owner Val Int) 2
            [fun d s => (s + d, none), fun _ s => (s * 2, none)]) 5 1).1.data
        = 5
    ∧ (xassign (fun _ v => v) 2 0
          (registerObs (Owner.mk (0 : Val) [] [] : Owner Val Int) 2
            [fun d s => (s + d, none), fun _ s => (s * 2, none)]) 5 1).2.1
        = 12
    ∧ (xassign (fun _ v => v) 2 0
          (registerObs (Owner.mk (0 : Val) [] [] : Owner Val Int) 2
            [fun d s => (s + d, none), fun _ s => (s * 2, none)]) 5 1).2.2
        = none := by
  have h := observer_order_once (Owner.mk (0 : Val) [] [] : Owner Val Int)
      2 0 [fun d s => (s + d, none), fun _ s => (s * 2, none)]
      (fun _ v => v) 5 5 1 rfl rfl
      (by
        intro cb hcb
        simp only [List.mem_cons, List.mem_singleton] at hcb
        rcases hcb with h1 | h1 | h1
        · subst h1
          intro d s
          rfl
        · subst h1
          intro d s
          rfl
        · exact absurd h1 (List.not_mem_nil cb))
  refine ⟨rfl, h.1, ?_, h.2.2⟩
  have h2 := h.2.1
  simpa using h2

/-- Witness for C3: no callbacks registered anywhere; assigning 9 at
offset 1 stores 9, leaves the external state at 0, throws nothing, and
the validator routine returns 9 unchanged. -/
theorem no_callbacks_identity_witness :
    findL (Owner.mk (0 : Val) [] [] : Owner Val Nat).m_observers 1 = none
    ∧ findL (Owner.mk (0 : Val) [] [] : Owner Val Nat).m_validators 1 = none
    ∧ (xassign (fun _ v => v) 1 0 (Owner.mk (0 : Val) [] []) 9
          (0 : Nat)).1.data = 9
    ∧ (xassign (fun _ v => v) 1 0 (Owner.mk (0 : Val) [] []) 9
          (0 : Nat)).2.1 = 0
    ∧ (xassign (fun _ v => v) 1 0 (Owner.mk (0 : Val) [] []) 9
          (0 : Nat)).2.2 = none
    ∧ invoke_validators
          (Owner.mk (0 : Val) [] [] : Owner Val Nat).m_validators 1 0 0 9
        = Except.ok 9 := by
  have h := no_callbacks_identity (Owner.mk (0 : Val) [] [] : Owner Val Nat)
      1 0 (fun _ v => v) 9 0 rfl rfl
  exact ⟨rfl, rfl, h.1, h.2.1, h.2.2.1, h.2.2.2⟩

end XProp

namespace XProp

/-- Witness for C6: a validator stored under type tag 1 at offset 3,
invoked requesting tag 0: the invocation raises `badAnyCast` and the
assignment leaves the owner value 7 and external state untouched. -/
theorem type_mismatch_fails_fast_witness :
    findL (Owner.mk (7 : Val) []
          [(3, [(⟨1, fun _ v => Except.ok v⟩ : Erased Val)])]
        : Owner Val Nat).m_validators 3
      = some [(⟨1, fun _ v => Except.ok v⟩ : Erased Val)]
    ∧ ¬ (1 : Nat) = 0
    ∧ invoke_validators
          (Owner.mk (7 : Val) []
              [(3, [(⟨1, fun _ v => Except.ok v⟩ : Erased Val)])]
            : Owner Val Nat).m_validators 3 0 7 5
        = Except.error XErr.badAnyCast
    ∧ xassign (fun _ v => v) 3 0
          (Owner.mk (7 : Val) []
            [(3, [(⟨1, fun _ v => Except.ok v⟩ : Erased Val)])]) 5 (0 : Nat)
        = (Owner.mk (7 : Val) []
            [(3, [(⟨1, fun _ v => Except.ok v⟩ : Erased Val)])], 0,
           some XErr.badAnyCast) := by
  have h := type_mismatch_fails_fast
      (Owner.mk (7 : Val) []
          [(3, [(⟨1, fun _ v => Except.ok v⟩ : Erased Val)])] : Owner Val Nat)
      3 1 0 (fun _ v => Except.ok v) [] (fun _ v => v) 5 0 rfl (by decide)
  exact ⟨rfl, by decide, h.1, h.2⟩

/-- Witness for C7: at offset 0, a well-behaved observer, then a
throwing observer, then a never-reached observer; assigning 4 with
external state 10 stores 4, runs only the first observer (external
state 14), and propagates the user exception. -/
theorem observer_throw_keeps_store_witness :
    findL (Owner.mk (0 : Val)
          [(0, [fun d s => (s + d, none),
                fun _ s => (s, some (XErr.userExc 9)),
                fun _ s => (s + 100, none)])] []
        : Owner Val Int).m_observers 0
      = some ([fun d s => (s + d, none)]
          ++ (fun _ s => (s, some (XErr.userExc 9)))
            :: [fun _ s => (s + 100, none)])
    ∧ (xassign (fun _ v => v) 0 0
          (Owner.mk (0 : Val)
            [(0, [fun d s => (s + d, none),
                  fun _ s => (s, some (XErr.userExc 9)),
                  fun _ s => (s + 100, none)])] []) 4 (10 : Int)).1.data = 4
    ∧ (xassign (fun _ v => v) 0 0
          (Owner.mk (0 : Val)
            [(0, [fun d s => (s + d, none),
                  fun _ s => (s, some (XErr.userExc 9)),
                  fun _ s => (s + 100, none)])] []) 4 (10 : Int)).2.1 = 14
    ∧ (xassign (fun _ v => v) 0 0
          (Owner.mk (0 : Val)
            [(0, [fun d s => (s + d, none),
                  fun _ s => (s, some (XErr.userExc 9)),
                  fun _ s => (s + 100, none)])] []) 4 (10 : Int)).2.2
        = some (XErr.userExc 9) := by
  have h := observer_throw_keeps_store
      (Owner.mk (0 : Val)
          [(0, [fun d s => (s + d, none),
                fun _ s => (s, some (XErr.userExc 9)),
                fun _ s => (s + 100, none)])] [] : Owner Val Int)
      0 0 [fun d s => (s + d, none)] [fun _ s => (s + 100, none)]
      (fun _ s => (s, some (XErr.userExc 9))) (XErr.userExc 9)
      (fun _ v => v) 4 4 10 rfl rfl
      (by
        intro cb hcb
        simp only [List.mem_singleton] at hcb
        subst hcb
        intro d s
        rfl)
      (fun d s => rfl)
  refine ⟨rfl, h.1, ?_, h.2.2⟩
  have h2 := h.2.1
  simpa using h2

/-- Witness for C10: at offset 0, a validator chain add-1 then throw
then identity, on an owner holding 5; assigning 9 leaves the owner at 5
(nothing stored), the external state untouched, and propagates the
validator's exception. -/
theorem validator_throw_no_store_witness :
    findL (Owner.mk (5 : Val) []
          [(0, [wrapVal 0 (fun _ v => v + 1),
                (⟨0, fun _ _ => Except.error (XErr.userExc 3)⟩ : Erased Val),
                wrapVal 0 (fun _ v => v)])]
        : Owner Val Nat).m_validators 0
      = some ([fun _ v => v + 1].map (wrapVal 0)
          ++ (⟨0, fun _ _ => Except.error (XErr.userExc 3)⟩ : Erased Val)
            :: [wrapVal 0 (fun _ v => v)])
    ∧ xassign (fun _ v => v) 0 0
          (Owner.mk (5 : Val) []
            [(0, [wrapVal 0 (fun _ v => v + 1),
                  (⟨0, fun _ _ => Except.error (XErr.userExc 3)⟩ : Erased Val),
                  wrapVal 0 (fun _ v => v)])]) 9 (2 : Nat)
        = (Owner.mk (5 : Val) []
            [(0, [wrapVal 0 (fun _ v => v + 1),
                  (⟨0, fun _ _ => Except.error (XErr.userExc 3)⟩ : Erased Val),
                  wrapVal 0 (fun _ v => v)])], 2, some (XErr.userExc 3)) := by
  have h := validator_throw_no_store
      (Owner.mk (5 : Val) []
          [(0, [wrapVal 0 (fun _ v => v + 1),
                (⟨0, fun _ _ => Except.error (XErr.userExc 3)⟩ : Erased Val),
                wrapVal 0 (fun _ v => v)])] : Owner Val Nat)
      0 0 [fun _ v => v + 1] [wrapVal 0 (fun _ v => v)] (XErr.userExc 3)
      (fun _ v => v) 9 2 rfl
  exact ⟨rfl, h⟩

end XProp

namespace XProp

/-- A concrete owner for the C8 witness: one observer and one validator
at offset 0, one observer and one validator at offset 1. -/
def c8owner : Owner Val Int :=
  Owner.mk 0
    [(0, [fun d s => (s + d, none)]), (1, [fun d s => (s + 100 + d, none)])]
    [(0, [wrapVal 0 (fun _ v => v + 1)]), (1, [wrapVal 0 (fun _ v => v * 3)])]

/-- Witness for C8: after unregistering the offset-0 observers and
validators of `c8owner`, an assignment at offset 0 stores the proposed
value with zero callbacks, while offset 1 keeps its registrations and
an assignment at offset 1 behaves exactly as before. -/
theorem unregister_frame_witness :
    ¬ (1 : Nat) = 0
    ∧ (invoke_observers (unobserve c8owner 0).m_observers 0 0 2 = (2, none)
    ∧ invoke_validators (unvalidate c8owner 0).m_validators 0 0 0 7
        = Except.ok 7
    ∧ (xassign (fun _ v => v) 0 0 (unvalidate (unobserve c8owner 0) 0) 5
          2).1.data = (fun _ v => v : Val → Val → Val) c8owner.data 5
    ∧ (xassign (fun _ v => v) 0 0 (unvalidate (unobserve c8owner 0) 0) 5
          2).2.1 = 2
    ∧ (xassign (fun _ v => v) 0 0 (unvalidate (unobserve c8owner 0) 0) 5
          2).2.2 = none
    ∧ findL (unobserve c8owner 0).m_observers 1 = findL c8owner.m_observers 1
    ∧ findL (unvalidate c8owner 0).m_validators 1
        = findL c8owner.m_validators 1
    ∧ (xassign (fun _ v => v) 1 0 (unvalidate (unobserve c8owner 0) 0) 5
          2).1.data = (xassign (fun _ v => v) 1 0 c8owner 5 2).1.data
    ∧ (xassign (fun _ v => v) 1 0 (unvalidate (unobserve c8owner 0) 0) 5
          2).2.1 = (xassign (fun _ v => v) 1 0 c8owner 5 2).2.1
    ∧ (xassign (fun _ v => v) 1 0 (unvalidate (unobserve c8owner 0) 0) 5
          2).2.2 = (xassign (fun _ v => v) 1 0 c8owner 5 2).2.2) :=
  ⟨by decide,
   unregister_frame c8owner 0 1 0 0 (fun _ v => v) 5 7 2 (by decide)⟩

end XProp
